import Mathlib

/-!
Verification of the fishing-catch-predictor pipeline.

This file gives a shallow embedding, in Lean 4, of the core logic of the
repository: the feature engine (`src/predictor/features.py`), the two
predictor implementations (`src/predictor/inference.py` and
`src/predictor/predictor.py`), and the incremental merge
(`src/data_updater/main.py`).  Theorems about the embedded definitions
settle the frozen claims about the program.

Modelling conventions:
* Calendar dates are integers counting days since 1970-01-01; the Gregorian
  calendar decomposition and the ISO week number are computed from that
  integer exactly as `pandas` does.
* Machine floats are modelled by rationals.  A pandas cell holding `NaN` or
  `±Inf` is modelled as `none`: the inference step replaces `±Inf` by `NaN`
  and then drops any row containing `NaN`, so the two poisons are
  interchangeable there, and with the data-model invariants (non-negative
  catch counts, non-negative visitor counts) no infinite value can reach a
  rolling window, which makes the collapse exact.
* The transcendental primitives are abstracted: `sin(2πx)`, `cos(2πx)` and
  `sqrt` appear in the source only as black-box numeric kernels, so the
  embedding takes them as an explicit parameter bundle `NumPrims`; every
  theorem is proved for an arbitrary bundle.
-/

namespace FCP

/-- One calendar date's observation, a row of `fishing_data.csv`
(columns `date, aji_count, visitors, water_temp, weather`).
`date` is the day number since 1970-01-01. -/
structure DailyRecord where
  date : ℤ
  aji_count : ℚ
  visitors : Option ℚ
  water_temp : Option ℚ
  weather : Option String
deriving DecidableEq, Repr

/-- The numeric primitives the feature engine treats as black boxes:
`sin2pi x` models `np.sin(2 * np.pi * x)`, `cos2pi x` models
`np.cos(2 * np.pi * x)`, and `sqrtFn` models the square root used inside
the pandas rolling standard deviation. -/
structure NumPrims where
  sin2pi : ℚ → ℚ
  cos2pi : ℚ → ℚ
  sqrtFn : ℚ → ℚ

/-- NaN-propagating unary map on cells. -/
def omap (f : ℚ → ℚ) : Option ℚ → Option ℚ
  | some x => some (f x)
  | none => none

/-- NaN-propagating binary map on cells. -/
def omap2 (f : ℚ → ℚ → ℚ) : Option ℚ → Option ℚ → Option ℚ
  | some x, some y => some (f x y)
  | _, _ => none

/-- Cell subtraction (`NaN` poisons). -/
def osub : Option ℚ → Option ℚ → Option ℚ := omap2 (· - ·)

/-- Cell multiplication (`NaN` poisons). -/
def omul : Option ℚ → Option ℚ → Option ℚ := omap2 (· * ·)

/-- Cell division; a zero denominator yields `none`
(pandas produces `±Inf`/`NaN` there, which the cleaning step removes). -/
def odiv : Option ℚ → Option ℚ → Option ℚ
  | some x, some y => if y = 0 then none else some (x / y)
  | _, _ => none

/-- pandas-style strict comparison cast to int: `(a > b).astype(int)`.
A comparison with `NaN` is `False`, hence `0`. -/
def ogt : Option ℚ → Option ℚ → ℚ
  | some x, some y => if y < x then 1 else 0
  | _, _ => 0

/-- Gregorian calendar from a day number (days since 1970-01-01),
returning `(year, month, day)`.  Standard civil-from-days algorithm. -/
def civilFromDays (z : ℤ) : ℤ × ℤ × ℤ :=
  let w := z + 719468
  let era := w.ediv 146097
  let doe := w.emod 146097
  let yoe := (doe - doe.ediv 1460 + doe.ediv 36524 - doe.ediv 146096).ediv 365
  let doy := doe - (365 * yoe + yoe.ediv 4 - yoe.ediv 100)
  let mp := (5 * doy + 2).ediv 153
  let d := doy - (153 * mp + 2).ediv 5 + 1
  let m := if mp < 10 then mp + 3 else mp - 9
  (if m ≤ 2 then era * 400 + yoe + 1 else era * 400 + yoe, m, d)

/-- Day number since 1970-01-01 of a Gregorian date. -/
def daysFromCivil (y m d : ℤ) : ℤ :=
  let y' := if m ≤ 2 then y - 1 else y
  let era := y'.ediv 400
  let yoe := y' - era * 400
  let mp := (m + 9).emod 12
  let doy := (153 * mp + 2).ediv 5 + d - 1
  let doe := yoe * 365 + yoe.ediv 4 - yoe.ediv 100 + doy
  era * 146097 + doe - 719468

/-- Year component (`df['date'].dt.year`). -/
def yearOf (z : ℤ) : ℤ := (civilFromDays z).1

/-- Month component (`df['date'].dt.month`). -/
def monthOf (z : ℤ) : ℤ := (civilFromDays z).2.1

/-- Day-of-month component (`df['date'].dt.day`). -/
def dayOf (z : ℤ) : ℤ := (civilFromDays z).2.2

/-- Day of week with Monday = 0 (`df['date'].dt.dayofweek`);
1970-01-01 was a Thursday. -/
def dayofweekOf (z : ℤ) : ℤ := (z + 3).emod 7

/-- ISO-8601 week number (`df['date'].dt.isocalendar().week`): the week
number of a date is the index of the week containing its Thursday. -/
def isoWeekOf (z : ℤ) : ℤ :=
  let thu := z + (3 - dayofweekOf z)
  let jan1 := daysFromCivil (yearOf thu) 1 1
  (thu - jan1).ediv 7 + 1

/-- Day number of the lunar reference date 2000-01-06. -/
def moonRefDay : ℤ := daysFromCivil 2000 1 6

/-- The synodic month length `29.53058867` as an exact rational. -/
def moonCycle : ℚ := 2953058867 / 100000000

/-- `get_moon_phase` (`features.py`): fractional phase in `[0,1)`,
`((date - 2000-01-06) mod 29.53058867) / 29.53058867` with Python float
`%` semantics (result has the sign of the divisor). -/
def moonPhase (z : ℤ) : ℚ :=
  let days : ℚ := ((z - moonRefDay : ℤ) : ℚ)
  (days - moonCycle * ⌊days / moonCycle⌋) / moonCycle

/-- Stable insertion by ascending date. -/
def insertByDate (r : DailyRecord) : List DailyRecord → List DailyRecord
  | [] => [r]
  | x :: xs => if r.date ≤ x.date then r :: x :: xs else x :: insertByDate r xs

/-- `df.sort_values('date')`: stable insertion sort by ascending date. -/
def sortByDate (l : List DailyRecord) : List DailyRecord :=
  l.foldr insertByDate []

/-- Value of a per-row derived quantity at row `i` (`none` past the end). -/
def rowF (f : DailyRecord → Option ℚ) (s : List DailyRecord) (i : ℕ) : Option ℚ :=
  (s.get? i).bind f

/-- `x.shift(n)` of a per-row quantity, evaluated at row `i`. -/
def lagF (f : DailyRecord → Option ℚ) (n : ℕ) (s : List DailyRecord) (i : ℕ) : Option ℚ :=
  if i < n then none else rowF f s (i - n)

/-- `df['weather'].shift(1)` at row `i`. -/
def weatherLag1 (s : List DailyRecord) (i : ℕ) : Option String :=
  if i < 1 then none else (s.get? (i - 1)).bind (·.weather)

/-- Raw catch count as a cell. -/
def ajiF (r : DailyRecord) : Option ℚ := some r.aji_count

/-- Raw visitors as a cell. -/
def visF (r : DailyRecord) : Option ℚ := r.visitors

/-- Raw water temperature as a cell. -/
def tempF (r : DailyRecord) : Option ℚ := r.water_temp

/-- `aji_per_person = aji_count / (visitors + 1)`. -/
def appF (r : DailyRecord) : Option ℚ :=
  match r.visitors with
  | some v => if v + 1 = 0 then none else some (r.aji_count / (v + 1))
  | none => none

/-- `temp_optimal = ((water_temp >= 15) & (water_temp <= 23)).astype(int)`;
a comparison with `NaN` is `False`, so a missing temperature gives `0`. -/
def tempOptF (r : DailyRecord) : Option ℚ :=
  match r.water_temp with
  | some t => some (if 15 ≤ t ∧ t ≤ 23 then 1 else 0)
  | none => some 0

/-- Date of row `i`. -/
def dateAt (s : List DailyRecord) (i : ℕ) : Option ℤ := (s.get? i).map (·.date)

/-- Lift a function of the row's own date to a column. -/
def dateCol (g : ℤ → ℚ) (s : List DailyRecord) (i : ℕ) : Option ℚ := (dateAt s i).map g

/-- The non-missing sample of the `w`-wide rolling window over the
`shift(1)`-ed per-row quantity `f`, at row `i`: the values of `f` on the
original rows `i-w .. i-1` that exist and are non-missing. -/
def rollVals (w : ℕ) (f : DailyRecord → Option ℚ) (s : List DailyRecord) (i : ℕ) : List ℚ :=
  (List.range w).filterMap (fun k => if k + 1 ≤ i then (s.get? (i - 1 - k)).bind f else none)

/-- Arithmetic mean of a sample. -/
def listMean (v : List ℚ) : ℚ := v.sum / (v.length : ℚ)

/-- The mean of a sample when at least one value is present
(`min_periods=1`). -/
def meanIfNonempty (v : List ℚ) : Option ℚ :=
  if 1 ≤ v.length then some (listMean v) else none

/-- `x.shift(1).rolling(window=w, min_periods=1).mean()` at row `i`. -/
def rollMean (w : ℕ) (f : DailyRecord → Option ℚ) (s : List DailyRecord) (i : ℕ) : Option ℚ :=
  meanIfNonempty (rollVals w f s i)

/-- Unbiased sample variance (pandas `std` uses `ddof = 1`). -/
def sampleVar (v : List ℚ) : ℚ :=
  ((v.map (fun x => (x - listMean v) ^ 2)).sum) / ((v.length : ℚ) - 1)

/-- The sample standard deviation when at least two values are present
(`min_periods=2`, `ddof=1`); the square root is the abstract `P.sqrtFn`. -/
def stdIfEnough (P : NumPrims) (v : List ℚ) : Option ℚ :=
  if 2 ≤ v.length then some (P.sqrtFn (sampleVar v)) else none

/-- `x.shift(1).rolling(window=w, min_periods=2).std()` at row `i`. -/
def rollStd (P : NumPrims) (w : ℕ) (f : DailyRecord → Option ℚ)
    (s : List DailyRecord) (i : ℕ) : Option ℚ :=
  stdIfEnough P (rollVals w f s i)

/-- `x.shift(1).rolling(window=w, min_periods=1).max()` at row `i`. -/
def rollMax (w : ℕ) (f : DailyRecord → Option ℚ) (s : List DailyRecord) (i : ℕ) : Option ℚ :=
  (rollVals w f s i).max?

/-- `x.shift(1).rolling(window=w, min_periods=1).min()` at row `i`. -/
def rollMin (w : ℕ) (f : DailyRecord → Option ℚ) (s : List DailyRecord) (i : ℕ) : Option ℚ :=
  (rollVals w f s i).min?

/-- Group-wise "shift then expanding mean"
(`groupby(key).transform(lambda x: x.shift(1).expanding().mean())`):
the mean of the non-missing values of `f` over the strictly earlier rows
whose date has the same key as row `i`'s own date. -/
def groupExpMean (key : ℤ → ℤ) (f : DailyRecord → Option ℚ)
    (s : List DailyRecord) (i : ℕ) : Option ℚ :=
  match dateAt s i with
  | none => none
  | some d =>
    meanIfNonempty ((List.range i).filterMap
      (fun j => (s.get? j).bind (fun rj => if key rj.date = key d then f rj else none)))

/-- Forward-filled value at row `i` (pandas pads before `pct_change`). -/
def ffillF (f : DailyRecord → Option ℚ) (s : List DailyRecord) : ℕ → Option ℚ
  | 0 => rowF f s 0
  | i + 1 => (rowF f s (i + 1)).orElse (fun _ => ffillF f s i)

/-- `x.pct_change(1).shift(1)` at row `i`: the padded ratio
`x[i-1]/x[i-2] - 1`; a zero denominator yields `none`
(pandas produces `±Inf`/`NaN` there, removed by the cleaning step). -/
def pctChangeLag1 (f : DailyRecord → Option ℚ) (s : List DailyRecord) (i : ℕ) : Option ℚ :=
  match i with
  | 0 => none
  | 1 => none
  | k + 2 =>
    (ffillF f s k).bind (fun b =>
      if b = 0 then none else (ffillF f s (k + 1)).map (fun a => a / b - 1))

/-- `temp_gradient_{d}d = (water_temp.shift(1) - water_temp.shift(1+d)) / d`. -/
def tempGradient (d : ℕ) (s : List DailyRecord) (i : ℕ) : Option ℚ :=
  omap (· / (d : ℚ)) (osub (lagF tempF 1 s i) (lagF tempF (1 + d) s i))

/-- A column of the feature table, as a function of the (sorted) series
and the row index. -/
abbrev ColFn := List DailyRecord → ℕ → Option ℚ

/-- Shift a whole column down by `n` rows. -/
def shiftCol (n : ℕ) (c : ColFn) : ColFn := fun s i => if i < n then none else c s (i - n)

/-- The raw numeric columns kept in the output plus `aji_per_person`. -/
def rawCols : List (String × ColFn) :=
  [("aji_count", rowF ajiF), ("visitors", rowF visF), ("water_temp", rowF tempF),
   ("aji_per_person", rowF appF)]

/-- Lunar columns. -/
def moonCols (P : NumPrims) : List (String × ColFn) :=
  [("moon_phase", dateCol moonPhase),
   ("moon_phase_sin", dateCol (fun d => P.sin2pi (moonPhase d))),
   ("moon_phase_cos", dateCol (fun d => P.cos2pi (moonPhase d))),
   ("is_full_moon", dateCol (fun d => if 2/5 < moonPhase d ∧ moonPhase d < 3/5 then 1 else 0)),
   ("is_new_moon", dateCol (fun d => if moonPhase d < 1/10 ∨ 9/10 < moonPhase d then 1 else 0))]

/-- The lag horizons of `features.py`. -/
def lagList : List ℕ := [1, 2, 3, 7, 14, 21, 28]

/-- Lagged columns, four per horizon. -/
def lagCols : List (String × ColFn) :=
  lagList.flatMap (fun l =>
    [(s!"aji_pp_lag{l}", lagF appF l), (s!"aji_lag{l}", lagF ajiF l),
     (s!"visitors_lag{l}", lagF visF l), (s!"temp_lag{l}", lagF tempF l)])

/-- Calendar decomposition columns. -/
def calCols : List (String × ColFn) :=
  [("year", dateCol (fun d => (yearOf d : ℚ))),
   ("month", dateCol (fun d => (monthOf d : ℚ))),
   ("day", dateCol (fun d => (dayOf d : ℚ))),
   ("dayofweek", dateCol (fun d => (dayofweekOf d : ℚ))),
   ("week_of_year", dateCol (fun d => (isoWeekOf d : ℚ)))]

/-- Group-wise historical average columns. -/
def groupCols : List (String × ColFn) :=
  [("aji_pp_same_week_last_year", groupExpMean isoWeekOf appF),
   ("aji_pp_month_avg", groupExpMean monthOf appF),
   ("aji_pp_dayofweek_avg", groupExpMean dayofweekOf appF)]

/-- Cyclical month/week encodings. -/
def cycCols (P : NumPrims) : List (String × ColFn) :=
  [("month_sin", dateCol (fun d => P.sin2pi ((monthOf d : ℚ) / 12))),
   ("month_cos", dateCol (fun d => P.cos2pi ((monthOf d : ℚ) / 12))),
   ("week_sin", dateCol (fun d => P.sin2pi ((isoWeekOf d : ℚ) / 52))),
   ("week_cos", dateCol (fun d => P.cos2pi ((isoWeekOf d : ℚ) / 52)))]

/-- Water-temperature gradient block. -/
def tempCols : List (String × ColFn) :=
  [("temp_gradient_1d", tempGradient 1), ("temp_gradient_3d", tempGradient 3),
   ("temp_gradient_7d", tempGradient 7), ("temp_gradient_14d", tempGradient 14),
   ("temp_acceleration", fun s i => osub (tempGradient 1 s i) (shiftCol 1 (tempGradient 1) s i)),
   ("temp_rising", fun s i => some (ogt (tempGradient 1 s i) (some 0))),
   ("temp_falling", fun s i => some (ogt (some 0) (tempGradient 1 s i))),
   ("temp_optimal", rowF tempOptF),
   ("temp_optimal_lag1", lagF tempOptF 1)]

/-- The rolling-window widths of `features.py`. -/
def windowList : List ℕ := [3, 7, 14, 30]

/-- Rolling statistics, ten per window. -/
def rollCols (P : NumPrims) : List (String × ColFn) :=
  windowList.flatMap (fun w =>
    [(s!"aji_pp_ma{w}", rollMean w appF), (s!"aji_pp_std{w}", rollStd P w appF),
     (s!"aji_pp_max{w}", rollMax w appF), (s!"aji_pp_min{w}", rollMin w appF),
     (s!"aji_ma{w}", rollMean w ajiF), (s!"aji_std{w}", rollStd P w ajiF),
     (s!"visitors_ma{w}", rollMean w visF), (s!"visitors_std{w}", rollStd P w visF),
     (s!"temp_ma{w}", rollMean w tempF), (s!"temp_std{w}", rollStd P w tempF)])

/-- Change-rate columns. -/
def changeCols : List (String × ColFn) :=
  [("aji_pp_change", fun s i => osub (lagF appF 1 s i) (lagF appF 2 s i)),
   ("aji_pp_pct_change", pctChangeLag1 appF),
   ("aji_pp_is_increasing", fun s i => some (ogt (lagF appF 1 s i) (lagF appF 2 s i))),
   ("visitors_change", fun s i => osub (lagF visF 1 s i) (lagF visF 2 s i)),
   ("visitors_pct_change", pctChangeLag1 visF)]

/-- Pairwise interaction columns. -/
def interCols (P : NumPrims) : List (String × ColFn) :=
  [("aji_pp_lag1_x_temp_lag1", fun s i => omul (lagF appF 1 s i) (lagF tempF 1 s i)),
   ("aji_pp_lag1_x_visitors_lag1", fun s i => omul (lagF appF 1 s i) (lagF visF 1 s i)),
   ("aji_lag1_x_temp_lag1", fun s i => omul (lagF ajiF 1 s i) (lagF tempF 1 s i)),
   ("temp_lag1_x_visitors_lag1", fun s i => omul (lagF tempF 1 s i) (lagF visF 1 s i)),
   ("aji_pp_lag1_x_moon", fun s i =>
      omul (lagF appF 1 s i) (dateCol (fun d => P.sin2pi (moonPhase d)) s i)),
   ("temp_lag1_x_moon", fun s i =>
      omul (lagF tempF 1 s i) (dateCol (fun d => P.sin2pi (moonPhase d)) s i)),
   ("aji_pp_lag1_x_month_sin", fun s i =>
      omul (lagF appF 1 s i) (dateCol (fun d => P.sin2pi ((monthOf d : ℚ) / 12)) s i)),
   ("temp_lag1_x_month_sin", fun s i =>
      omul (lagF tempF 1 s i) (dateCol (fun d => P.sin2pi ((monthOf d : ℚ) / 12)) s i)),
   ("aji_pp_lag1_x_temp_gradient", fun s i => omul (lagF appF 1 s i) (tempGradient 7 s i)),
   ("aji_pp_ma7_x_temp_gradient", fun s i => omul (rollMean 7 appF s i) (tempGradient 7 s i))]

/-- Ratio-to-moving-average columns. -/
def ratioCols : List (String × ColFn) :=
  [("aji_pp_to_ma3_ratio", fun s i =>
      odiv (lagF appF 1 s i) (omap (· + 1/10) (rollMean 3 appF s i))),
   ("aji_pp_to_ma7_ratio", fun s i =>
      odiv (lagF appF 1 s i) (omap (· + 1/10) (rollMean 7 appF s i))),
   ("aji_pp_to_ma14_ratio", fun s i =>
      odiv (lagF appF 1 s i) (omap (· + 1/10) (rollMean 14 appF s i))),
   ("visitors_to_ma7_ratio", fun s i =>
      odiv (lagF visF 1 s i) (omap (· + 1) (rollMean 7 visF s i))),
   ("temp_to_ma7_ratio", fun s i =>
      odiv (lagF tempF 1 s i) (omap (· + 1/10) (rollMean 7 tempF s i)))]

/-- All numeric columns of the feature table produced by
`create_features`, in creation order. -/
def numericCols (P : NumPrims) : List (String × ColFn) :=
  rawCols ++ moonCols P ++ lagCols ++ calCols ++ groupCols ++ cycCols P ++
    tempCols ++ rollCols P ++ changeCols ++ interCols P ++ ratioCols

/-- The distinct weather values observed in the `shift(1)`-ed weather
column: the dummy-column categories chosen by `pd.get_dummies`. -/
def weatherCats (s : List DailyRecord) : List String :=
  ((List.range s.length).filterMap (weatherLag1 s)).dedup

/-- One row of the feature table distilled by `create_features`:
its date, every numeric cell by column name, the two string columns,
and the one-hot weather indicator cells. -/
structure FeatRow where
  date : ℤ
  cells : List (String × Option ℚ)
  weather : Option String
  weather_lag1 : Option String
  dummies : List (String × ℚ)
deriving DecidableEq, Repr

/-- Build the feature row of index `i` of the sorted series `s`. -/
def featRowAt (P : NumPrims) (s : List DailyRecord) (cats : List String)
    (i : ℕ) (r : DailyRecord) : FeatRow :=
  { date := r.date
    cells := (numericCols P).map (fun c => (c.1, c.2 s i))
    weather := r.weather
    weather_lag1 := weatherLag1 s i
    dummies := cats.map (fun c => (c, if weatherLag1 s i = some c then 1 else 0)) }

/-- `create_features`: sort by date, then produce one feature row per
input row. -/
def createFeatures (P : NumPrims) (df : List DailyRecord) : List FeatRow :=
  let s := sortByDate df
  let cats := weatherCats s
  s.mapIdx (fun i r => featRowAt P s cats i r)

/-- Numeric value of a named column of a feature row (dummy columns
included); `none` when the column is absent or the cell is missing. -/
def cellVal (row : FeatRow) (name : String) : Option ℚ :=
  match row.cells.lookup name with
  | some v => v
  | none => row.dummies.lookup name

/-- A row survives `df.replace([inf, -inf], nan).dropna()`: every cell in
every column (the string columns included) is present. -/
def rowClean (row : FeatRow) : Bool :=
  row.cells.all (fun c => c.2.isSome) && row.weather.isSome && row.weather_lag1.isSome

/-- The inputs `_assess_risk` reads from the feature row. -/
structure RiskInputs where
  aji_pp_lag1 : Option ℚ
  aji_std7 : Option ℚ
  month : Option ℚ
deriving DecidableEq, Repr

/-- The high-risk months. -/
def riskMonths : List ℚ := [5, 6, 7, 8, 9]

/-- `inference.FishingPredictor._assess_risk`: risk level and reasons. -/
def assessRisk (r : RiskInputs) : ℕ × List String :=
  let acc1 : ℕ × List String :=
    match r.aji_pp_lag1 with
    | some v => if v < 2 then (1, ["前日低調"]) else (0, ["前日好調"])
    | none => (0, [])
  let acc2 : ℕ × List String :=
    match r.aji_std7 with
    | some v => if 400 < v then (acc1.1 + 1, acc1.2 ++ ["変動大"]) else (acc1.1, acc1.2 ++ ["安定期"])
    | none => acc1
  match r.month with
  | some v => if riskMonths.contains v then (acc2.1 + 1, acc2.2 ++ ["リスク月"]) else acc2
  | none => acc2

/-- `inference.FishingPredictor._get_confidence_display`. -/
def confidenceDisplay (riskLevel : ℕ) : String × String :=
  if riskLevel ≤ 1 then ("高", "⭐⭐⭐")
  else if riskLevel = 2 then ("中", "⭐⭐")
  else ("低", "⭐")

/-- The model configuration blob (`models/config.json`). -/
structure ModelConfig where
  selected_features : List String
  bias_factor : ℚ
  threshold : ℚ

/-- The result dict of `inference.FishingPredictor.predict_tomorrow`.
`prediction_date` is kept as a day number (the Python code formats it as
a string). -/
structure PredResult where
  prediction_date : ℤ
  raw_prediction : ℚ
  conservative_prediction : ℚ
  should_go : Bool
  confidence_level : String
  confidence_stars : String
  risk_reasons : List String
  threshold : ℚ
  bias_factor : ℚ
deriving DecidableEq, Repr

/-- Read the risk-assessment inputs from a feature row, `none` standing
for an absent column or a missing cell exactly as the `np.isnan` guard
does. -/
def riskInputsOf (row : FeatRow) : RiskInputs :=
  { aji_pp_lag1 := cellVal row "aji_pp_lag1"
    aji_std7 := cellVal row "aji_std7"
    month := cellVal row "month" }

/-- Assemble the prediction result from the chosen basis row. -/
def resultOfRow (model : List (Option ℚ) → ℚ) (cfg : ModelConfig) (refDate : ℤ)
    (row : FeatRow) : PredResult :=
  let raw := model (cfg.selected_features.map (cellVal row))
  let conservative := raw * cfg.bias_factor
  let level := (assessRisk (riskInputsOf row)).1
  { prediction_date := refDate + 1
    raw_prediction := raw
    conservative_prediction := conservative
    should_go := decide (cfg.threshold ≤ conservative)
    confidence_level := (confidenceDisplay level).1
    confidence_stars := (confidenceDisplay level).2
    risk_reasons := (assessRisk (riskInputsOf row)).2
    threshold := cfg.threshold
    bias_factor := cfg.bias_factor }

/-- `inference.FishingPredictor.predict_tomorrow` for an explicitly
supplied reference date (the Python `None` default reads the wall clock,
outside the model): build features over the full series, drop the rows
with any missing or infinite cell, fail if none remain, and otherwise
predict from the last remaining row.  The opaque trained model is a
function from the selected feature cells to a scalar. -/
def predictTomorrow (P : NumPrims) (model : List (Option ℚ) → ℚ) (cfg : ModelConfig)
    (df : List DailyRecord) (refDate : ℤ) : Except String PredResult :=
  match ((createFeatures P df).filter rowClean).getLast? with
  | none => .error "特徴量作成後のデータが空です。過去データが不足している可能性があります。"
  | some row => .ok (resultOfRow model cfg refDate row)

/-- `predictor.FishingPredictor._assess_risk`: risk level only. -/
def assessRiskLevel (r : RiskInputs) : ℕ :=
  let l1 : ℕ :=
    match r.aji_pp_lag1 with
    | some v => if v < 2 then 1 else 0
    | none => 0
  let l2 : ℕ :=
    match r.aji_std7 with
    | some v => if 400 < v then l1 + 1 else l1
    | none => l1
  match r.month with
  | some v => if riskMonths.contains v then l2 + 1 else l2
  | none => l2

/-- The result dict of `predictor.FishingPredictor.predict_tomorrow`. -/
structure PredResultLite where
  prediction_date : ℤ
  conservative_prediction : ℚ
  risk_level : ℕ
deriving DecidableEq, Repr

/-- Assemble the lean prediction result from the chosen basis row. -/
def resultOfRowLite (model : List (Option ℚ) → ℚ) (cfg : ModelConfig) (refDate : ℤ)
    (row : FeatRow) : PredResultLite :=
  { prediction_date := refDate + 1
    conservative_prediction := model (cfg.selected_features.map (cellVal row)) * cfg.bias_factor
    risk_level := assessRiskLevel (riskInputsOf row) }

/-- `predictor.FishingPredictor.predict_tomorrow`: the second, leaner
predictor implementation in the source; identical pipeline, smaller
result. -/
def predictTomorrowLite (P : NumPrims) (model : List (Option ℚ) → ℚ) (cfg : ModelConfig)
    (df : List DailyRecord) (refDate : ℤ) : Except String PredResultLite :=
  match ((createFeatures P df).filter rowClean).getLast? with
  | none => .error "特徴量作成後のデータが空です。過去データが不足している可能性があります。"
  | some row => .ok (resultOfRowLite model cfg refDate row)

/-- The last row surviving the cleaning step, if any. -/
def lastCleanRow (P : NumPrims) (df : List DailyRecord) : Option FeatRow :=
  ((createFeatures P df).filter rowClean).getLast?

/-- One species row of a day's `body.csv`: species label and totals
field; the leading-digit extraction from the totals text is abstracted
to its parsed result. -/
structure BodyRow where
  fish : Option String
  total : Option ℤ
deriving DecidableEq, Repr

/-- The head row of a day's `head.csv`: weather label, water temperature
and visitor count, the numeric-pattern extraction abstracted to its
parsed result. -/
structure HeadRow where
  weather : Option String
  water_temp : Option ℚ
  visitors : Option ℚ
deriving DecidableEq, Repr

/-- The two documents the daily-data source holds for one date. -/
structure RawDoc where
  head : List HeadRow
  body : List BodyRow
deriving DecidableEq, Repr

/-- `parse_daily_data`: fetch the day's documents and build a
`DailyRecord`; `none` models a missing document, an empty head table, or
any caught fetch/parse exception.  The catch count is the totals field
of the body row whose species label is `アジ`, defaulting to `0` when
the row or its totals field is absent. -/
def parseDailyData (fetch : ℤ → Option RawDoc) (d : ℤ) : Option DailyRecord :=
  match fetch d with
  | none => none
  | some doc =>
    match doc.head.head? with
    | none => none
    | some h =>
      let aji : ℚ :=
        match doc.body.find? (fun b => b.fish == some "アジ") with
        | some b => ((b.total.getD 0 : ℤ) : ℚ)
        | none => 0
      some { date := d, aji_count := aji, visitors := h.visitors,
             water_temp := h.water_temp, weather := h.weather }

/-- `df_existing['date'].max()`. -/
def maxDate (l : List DailyRecord) : Option ℤ := (l.map (·.date)).max?

/-- The merge's collection loop: process each date from `cur` through
`target` inclusive, appending each successfully parsed record and
skipping each failed date without aborting. -/
def collectNewData (fetch : ℤ → Option RawDoc) (cur target : ℤ) : List DailyRecord :=
  if target < cur then []
  else
    match parseDailyData fetch cur with
    | some rec => rec :: collectNewData fetch (cur + 1) target
    | none => collectNewData fetch (cur + 1) target
termination_by (target + 1 - cur).toNat
decreasing_by
  all_goals simp_wf
  all_goals omega

/-- The inclusive date range `[a, b]`. -/
def dateRange (a b : ℤ) : List ℤ :=
  if b < a then [] else a :: dateRange (a + 1) b
termination_by (b + 1 - a).toNat
decreasing_by
  all_goals simp_wf
  all_goals omega

/-- The merge's final step: when nothing was collected the series is
returned untouched, otherwise the new records are appended and the
result re-sorted by date (`pd.concat` + `sort_values`). -/
def mergeNew (existing newData : List DailyRecord) : List DailyRecord × ℕ :=
  if newData.isEmpty then (existing, 0)
  else (sortByDate (existing ++ newData), newData.length)

/-- `update_fishing_data` (object-storage I/O abstracted to the per-date
source `fetch`): returns the updated series and the number of appended
rows. -/
def updateFishingData (fetch : ℤ → Option RawDoc) (existing : List DailyRecord)
    (target : ℤ) : List DailyRecord × ℕ :=
  match maxDate existing with
  | some last =>
    if target ≤ last then (existing, 0)
    else mergeNew existing (collectNewData fetch (last + 1) target)
  | none => mergeNew existing (collectNewData fetch target target)

/-- The data-model invariants on raw records: non-negative catch count
and non-negative visitor count where present. -/
def ValidSeries (df : List DailyRecord) : Prop :=
  ∀ r ∈ df, 0 ≤ r.aji_count ∧ ∀ v ∈ r.visitors, 0 ≤ v

/-- The series invariant: strictly ascending dates (sorted, at most one
record per date). -/
def StrictSortedByDate (df : List DailyRecord) : Prop :=
  df.Pairwise (fun a b => a.date < b.date)

instance (df : List DailyRecord) : Decidable (StrictSortedByDate df) :=
  List.instDecidablePairwise df

/-- The columns of the feature table that are functions of the row's own
raw values (the raw passthrough columns, `aji_per_person`, and
`temp_optimal`); every other numeric column depends only on strictly
earlier rows and on the row's own date. -/
def sameDayColNames : List String :=
  ["aji_count", "visitors", "water_temp", "aji_per_person", "temp_optimal"]

/-- Forget the reported prediction date (for comparing two runs of the
predictor that differ only in the supplied reference date). -/
def eraseDate (r : PredResult) : PredResult := { r with prediction_date := 0 }

/-- `Except` success flag. -/
def isOkE : Except ε α → Bool
  | .ok _ => true
  | .error _ => false

/-- Claim-side rule 1 risk: 1 when the lag-1 catch-per-visitor is
available and `< 2.0`, else 0. -/
def rule1Risk : Option ℚ → ℕ
  | some v => if v < 2 then 1 else 0
  | none => 0

/-- Claim-side rule 1 reasons: `前日低調` ("prior day underperformed")
when available and `< 2.0`, `前日好調` ("prior day strong") when
available otherwise, nothing when missing. -/
def rule1Reason : Option ℚ → List String
  | some v => if v < 2 then ["前日低調"] else ["前日好調"]
  | none => []

/-- Claim-side rule 2 risk: 1 when the 7-day rolling std of the raw
catch is available and `> 400`, else 0. -/
def rule2Risk : Option ℚ → ℕ
  | some v => if 400 < v then 1 else 0
  | none => 0

/-- Claim-side rule 2 reasons: `変動大` ("high volatility") when
available and `> 400`, `安定期` ("stable period") when available
otherwise, nothing when missing. -/
def rule2Reason : Option ℚ → List String
  | some v => if 400 < v then ["変動大"] else ["安定期"]
  | none => []

/-- Claim-side rule 3 risk: 1 when the month is available and in
`{5, 6, 7, 8, 9}`, else 0. -/
def rule3Risk : Option ℚ → ℕ
  | some v => if v = 5 ∨ v = 6 ∨ v = 7 ∨ v = 8 ∨ v = 9 then 1 else 0
  | none => 0

/-- Claim-side rule 3 reasons: `リスク月` ("high-risk season") when the
month is available and in `{5,...,9}`, nothing otherwise. -/
def rule3Reason : Option ℚ → List String
  | some v => if v = 5 ∨ v = 6 ∨ v = 7 ∨ v = 8 ∨ v = 9 then ["リスク月"] else []
  | none => []

/-- A fixed primitive bundle for concrete evaluations (the claims hold
for every bundle; witnesses pick this one). -/
def P0 : NumPrims := { sin2pi := fun _ => 0, cos2pi := fun _ => 0, sqrtFn := fun _ => 0 }

/-- A constant demo observation. -/
def demoRec (d : ℤ) : DailyRecord :=
  { date := d, aji_count := 2, visitors := some 1, water_temp := some 16, weather := some "晴れ" }

/-- 35 consecutive days of demo data starting 2024-06-01 (day 19875). -/
def demoSeries : List DailyRecord := (List.range 35).map (fun k => demoRec (19875 + k))

/-- A constant demo regressor. -/
def demoModel : List (Option ℚ) → ℚ := fun _ => 3

/-- A demo configuration. -/
def demoCfg : ModelConfig := { selected_features := ["aji_pp_lag1"], bias_factor := 1/2, threshold := 1 }

/-- The prediction the demo data produces: the last clean row is
2024-07-05, whose month (July) is a risk month and whose lag-1
catch-per-visitor is `2/(1+1) = 1 < 2`, hence risk level 2. -/
def demoResult : PredResult :=
  { prediction_date := 19901, raw_prediction := 3, conservative_prediction := 3/2,
    should_go := true, confidence_level := "中", confidence_stars := "⭐⭐",
    risk_reasons := ["前日低調", "安定期", "リスク月"], threshold := 1, bias_factor := 1/2 }

/-- The lean predictor's result on the demo data. -/
def demoResultLite : PredResultLite :=
  { prediction_date := 19901, conservative_prediction := 3/2, risk_level := 2 }

/-- Only five days of history: every feature row misses its 7/14/21/28-day
lookback, so the cleaning step drops all rows. -/
def fiveDaySeries : List DailyRecord := (List.range 5).map (fun k => demoRec (19875 + k))

/-- One observation with catch 5. -/
def leakA : List DailyRecord :=
  [{ date := 19875, aji_count := 5, visitors := some 4, water_temp := some 16, weather := some "晴れ" }]

/-- The same single date with its raw catch changed to 10. -/
def leakB : List DailyRecord :=
  [{ date := 19875, aji_count := 10, visitors := some 4, water_temp := some 16, weather := some "晴れ" }]

/-- Two days of data. -/
def leakC : List DailyRecord := [demoRec 19875, demoRec 19876]

/-- The same two days with the later row's raw values perturbed. -/
def leakD : List DailyRecord :=
  [demoRec 19875,
   { date := 19876, aji_count := 99, visitors := some 7, water_temp := some 25, weather := some "雨" }]

/-- A three-day series with two distinct weather values. -/
def wxSeries : List DailyRecord :=
  [demoRec 19875,
   { date := 19876, aji_count := 3, visitors := some 2, water_temp := some 17, weather := some "雨" },
   demoRec 19877]

/-- The third feature row of `wxSeries` (previous-day weather `雨`). -/
def wxRow : FeatRow :=
  (createFeatures P0 wxSeries).get ⟨2, by with_unfolding_all decide⟩

/-- A demo day document for the merge source. -/
def demoDoc : RawDoc :=
  { head := [{ weather := some "晴れ", water_temp := some 16, visitors := some 30 }],
    body := [{ fish := some "アジ", total := some 50 }] }

/-- A demo source: data exists for days 102 and 103 only; every other
date (such as 101) behaves as a fetch/parse failure. -/
def demoFetch : ℤ → Option RawDoc := fun d => if d = 102 ∨ d = 103 then some demoDoc else none

/-- The record day 102 parses to under `demoFetch`. -/
def demoParsed (d : ℤ) : DailyRecord :=
  { date := d, aji_count := 50, visitors := some 30, water_temp := some 16, weather := some "晴れ" }

/-- An existing one-row series ending at day 100. -/
def mergeBase : List DailyRecord := [demoRec 100]

instance : Std.Antisymm (fun a b : ℤ => a ≤ b) :=
  ⟨fun h h' => le_antisymm h h'⟩

/-- Inserting adds one element. -/
theorem insertByDate_length (r : DailyRecord) (l : List DailyRecord) :
    (insertByDate r l).length = l.length + 1 := by
  induction l with
  | nil => rfl
  | cons x xs ih =>
    simp only [insertByDate]
    split <;> simp [ih]

/-- Sorting preserves length. -/
theorem sortByDate_length (l : List DailyRecord) : (sortByDate l).length = l.length := by
  induction l with
  | nil => rfl
  | cons x xs ih =>
    show (insertByDate x (sortByDate xs)).length = xs.length + 1
    rw [insertByDate_length, ih]

/-- Sorting a strictly date-sorted series is the identity. -/
theorem sortByDate_sorted_eq (l : List DailyRecord) (h : StrictSortedByDate l) :
    sortByDate l = l := by
  induction l with
  | nil => rfl
  | cons x xs ih =>
    rw [StrictSortedByDate, List.pairwise_cons] at h
    have hxs := ih h.2
    show insertByDate x (sortByDate xs) = x :: xs
    rw [hxs]
    cases xs with
    | nil => rfl
    | cons y ys =>
      have hxy : x.date ≤ y.date := le_of_lt (h.1 y (by simp))
      simp [insertByDate, hxy]

/-- The feature table has one row per input row. -/
theorem createFeatures_length (P : NumPrims) (df : List DailyRecord) :
    (createFeatures P df).length = df.length := by
  simp only [createFeatures, List.length_mapIdx, sortByDate_length]

/-- The feature table's dates are the sorted input's dates in order. -/
theorem createFeatures_dates (P : NumPrims) (df : List DailyRecord) :
    (createFeatures P df).map FeatRow.date = (sortByDate df).map DailyRecord.date := by
  apply List.ext_getElem?
  intro i
  simp only [List.getElem?_map, createFeatures, List.getElem?_mapIdx]
  cases (sortByDate df)[i]? <;> simp [featRowAt]

/-- The predictor is the match on the last clean row. -/
theorem predictTomorrow_eq (P : NumPrims) (model : List (Option ℚ) → ℚ)
    (cfg : ModelConfig) (df : List DailyRecord) (d : ℤ) :
    predictTomorrow P model cfg df d =
      match lastCleanRow P df with
      | none => .error "特徴量作成後のデータが空です。過去データが不足している可能性があります。"
      | some row => .ok (resultOfRow model cfg d row) := rfl

/-- The lean predictor is the match on the last clean row. -/
theorem predictTomorrowLite_eq (P : NumPrims) (model : List (Option ℚ) → ℚ)
    (cfg : ModelConfig) (df : List DailyRecord) (d : ℤ) :
    predictTomorrowLite P model cfg df d =
      match lastCleanRow P df with
      | none => .error "特徴量作成後のデータが空です。過去データが不足している可能性があります。"
      | some row => .ok (resultOfRowLite model cfg d row) := rfl

/-- The two risk assessors agree on the risk level. -/
theorem assessRiskLevel_eq (r : RiskInputs) : assessRiskLevel r = (assessRisk r).1 := by
  obtain ⟨a, s, m⟩ := r
  cases a <;> cases s <;> cases m <;>
    simp only [assessRiskLevel, assessRisk] <;> split_ifs <;> rfl

/-- Claim C3: whenever `predict_tomorrow` succeeds, the returned
`conservative_prediction` equals `raw_prediction × bias_factor` exactly,
and `should_go` holds if and only if
`conservative_prediction ≥ threshold`. -/
theorem C3_conservative_scaling (P : NumPrims) (model : List (Option ℚ) → ℚ)
    (cfg : ModelConfig) (df : List DailyRecord) (d : ℤ) (r : PredResult)
    (h : predictTomorrow P model cfg df d = .ok r) :
    r.conservative_prediction = r.raw_prediction * cfg.bias_factor ∧
    (r.should_go = true ↔ cfg.threshold ≤ r.conservative_prediction) := by
  rw [predictTomorrow_eq] at h
  cases hl : lastCleanRow P df with
  | none => rw [hl] at h; exact absurd h (by simp)
  | some row =>
    rw [hl] at h
    simp only [Except.ok.injEq] at h
    subst h
    exact ⟨rfl, by simp [resultOfRow]⟩

set_option maxRecDepth 100000 in
set_option maxHeartbeats 1000000 in
/-- Claim C3 witness: the demo run succeeds and the scaling/threshold
relations hold on its concrete result. -/
theorem C3_conservative_scaling_witness :
    demoResult.conservative_prediction = demoResult.raw_prediction * demoCfg.bias_factor ∧
    (demoResult.should_go = true ↔ demoCfg.threshold ≤ demoResult.conservative_prediction) :=
  C3_conservative_scaling P0 demoModel demoCfg demoSeries 19900 demoResult
    (by with_unfolding_all rfl)

/-- Claim C5: the risk assessment is the sum of three independent 0/1
rules (lag-1 catch-per-visitor `< 2.0`; 7-day raw-catch rolling std
`> 400`; month in `{5,...,9}`), each contributing its reason tag in that
fixed order (`前日低調`/`前日好調` = prior day underperformed/strong,
`変動大`/`安定期` = high volatility/stable period, `リスク月` =
high-risk season), a rule with a missing input is silently skipped, and
the total risk level is at most 3. -/
theorem C5_risk_rules (r : RiskInputs) :
    assessRisk r =
      (rule1Risk r.aji_pp_lag1 + rule2Risk r.aji_std7 + rule3Risk r.month,
       rule1Reason r.aji_pp_lag1 ++ rule2Reason r.aji_std7 ++ rule3Reason r.month) ∧
    rule1Risk r.aji_pp_lag1 ≤ 1 ∧ rule2Risk r.aji_std7 ≤ 1 ∧ rule3Risk r.month ≤ 1 ∧
    (assessRisk r).1 ≤ 3 := by
  obtain ⟨a, s, m⟩ := r
  have hmem : ∀ v : ℚ, riskMonths.contains v = true ↔ (v = 5 ∨ v = 6 ∨ v = 7 ∨ v = 8 ∨ v = 9) := by
    intro v
    rw [List.contains_eq_any_beq]
    simp [riskMonths]
  cases a <;> cases s <;> cases m <;>
    simp only [assessRisk, rule1Risk, rule2Risk, rule3Risk,
      rule1Reason, rule2Reason, rule3Reason] <;>
    (try split_ifs) <;>
    simp_all [hmem]

/-- Claim C10: the supplied reference date influences nothing but the
reported `prediction_date`, which is always the reference date plus one
day; all other result fields are identical across any two supplied
dates. -/
theorem C10_date_only_moves_label (P : NumPrims) (model : List (Option ℚ) → ℚ)
    (cfg : ModelConfig) (df : List DailyRecord) (d1 d2 : ℤ) :
    (predictTomorrow P model cfg df d1).map eraseDate
      = (predictTomorrow P model cfg df d2).map eraseDate ∧
    (∀ d r, predictTomorrow P model cfg df d = .ok r → r.prediction_date = d + 1) := by
  constructor
  · rw [predictTomorrow_eq, predictTomorrow_eq]
    cases lastCleanRow P df <;> simp [Except.map, resultOfRow, eraseDate]
  · intro d r h
    rw [predictTomorrow_eq] at h
    cases hl : lastCleanRow P df with
    | none => rw [hl] at h; exact absurd h (by simp)
    | some row =>
      rw [hl] at h
      simp only [Except.ok.injEq] at h
      subst h
      rfl

set_option maxRecDepth 100000 in
set_option maxHeartbeats 1000000 in
/-- Claim C10 witness: the date-independence theorem applied at two
concrete reference dates of the demo run, whose success exhibits the
`prediction_date = reference + 1` conjunct at a concrete result. -/
theorem C10_date_only_moves_label_witness :
    (predictTomorrow P0 demoModel demoCfg demoSeries 19900).map eraseDate
      = (predictTomorrow P0 demoModel demoCfg demoSeries 20000).map eraseDate ∧
    demoResult.prediction_date = 19900 + 1 := by
  refine ⟨(C10_date_only_moves_label P0 demoModel demoCfg demoSeries 19900 20000).1, ?_⟩
  exact (C10_date_only_moves_label P0 demoModel demoCfg demoSeries 19900 20000).2
    19900 demoResult (by with_unfolding_all rfl)

/-- Claim C8: the two predictor implementations realize one contract:
they succeed on exactly the same inputs, and on success the lean
`predictor.py` result is a projection of the rich `inference.py` result
— same `prediction_date`, same `conservative_prediction`, and its
`risk_level` is the risk-level component of the rich implementation's
risk assessment of the same final clean row. -/
theorem C8_lite_refines_rich (P : NumPrims) (model : List (Option ℚ) → ℚ)
    (cfg : ModelConfig) (df : List DailyRecord) (d : ℤ) :
    isOkE (predictTomorrowLite P model cfg df d) = isOkE (predictTomorrow P model cfg df d) ∧
    (∀ r1 r2, predictTomorrow P model cfg df d = .ok r1 →
      predictTomorrowLite P model cfg df d = .ok r2 →
      r2.prediction_date = r1.prediction_date ∧
      r2.conservative_prediction = r1.conservative_prediction ∧
      (∀ row, lastCleanRow P df = some row →
        r2.risk_level = (assessRisk (riskInputsOf row)).1)) := by
  rw [predictTomorrow_eq, predictTomorrowLite_eq]
  cases hl : lastCleanRow P df with
  | none => exact ⟨rfl, by intro r1 r2 h; exact absurd h (by simp)⟩
  | some row0 =>
    refine ⟨rfl, ?_⟩
    intro r1 r2 h1 h2
    simp only [Except.ok.injEq] at h1 h2
    subst h1
    subst h2
    refine ⟨rfl, rfl, ?_⟩
    intro row hrow
    simp only [Option.some.injEq] at hrow
    subst hrow
    exact assessRiskLevel_eq (riskInputsOf row0)

/-- Claim C2 counterexample: on an input that is not sorted ascending by
date, `create_features` reorders the rows (it sorts by date first), so
the output date order differs from the input date order, refuting "no
row is reordered" for arbitrary input series. -/
theorem C2_counterexample :
    (createFeatures P0 [demoRec 19876, demoRec 19875]).map FeatRow.date ≠
      [demoRec 19876, demoRec 19875].map DailyRecord.date := by
  with_unfolding_all decide

set_option maxRecDepth 100000 in
set_option maxHeartbeats 1000000 in
/-- Claim C2 (amended): `create_features` always returns exactly one
output row per input row (same length, no row dropped); for an input
satisfying the series invariant (sorted ascending by date), the output
is in the same date order as the input — in general the output is in
sorted date order, an unsorted input being sorted first.  Rows with
insufficient lookback are kept with missing values in the affected
columns (exhibited on the first row of a two-day series: its
`aji_pp_lag1` cell is missing and the row fails the cleaning predicate,
yet it is present in the table). -/
theorem C2_length_and_order (P : NumPrims) (df : List DailyRecord) :
    (createFeatures P df).length = df.length ∧
    (StrictSortedByDate df →
      (createFeatures P df).map FeatRow.date = df.map DailyRecord.date) ∧
    (∃ row, (createFeatures P0 leakC)[0]? = some row ∧
      cellVal row "aji_pp_lag1" = none ∧ rowClean row = false) := by
  refine ⟨createFeatures_length P df, ?_, ?_⟩
  · intro hsorted
    rw [createFeatures_dates, sortByDate_sorted_eq df hsorted]
  · have hlen : 0 < (createFeatures P0 leakC).length := by
      rw [createFeatures_length]
      decide
    refine ⟨(createFeatures P0 leakC).get ⟨0, hlen⟩, ?_, ?_, ?_⟩
    · rw [List.getElem?_eq_getElem hlen]
      rfl
    · with_unfolding_all rfl
    · with_unfolding_all rfl

/-- Claim C2 witness: on the sorted two-day series the output dates
equal the input dates in order. -/
theorem C2_length_and_order_witness :
    (createFeatures P0 leakC).map FeatRow.date = leakC.map DailyRecord.date :=
  (C2_length_and_order P0 leakC).2.1 (by decide)

/-- A feature-table row is the feature row of the sorted series at the
same index. -/
theorem createFeatures_row (P : NumPrims) (df : List DailyRecord) (i : ℕ) (row : FeatRow)
    (h : (createFeatures P df)[i]? = some row) :
    ∃ r, (sortByDate df)[i]? = some r ∧
      row = featRowAt P (sortByDate df) (weatherCats (sortByDate df)) i r := by
  simp only [createFeatures, List.getElem?_mapIdx] at h
  cases hr : (sortByDate df)[i]? with
  | none => rw [hr] at h; exact Option.noConfusion h
  | some r =>
    rw [hr] at h
    simp only [Option.map_some', Option.some.injEq] at h
    exact ⟨r, rfl, h.symm⟩

/-- Claim C9: the weather encoding is one-hot over exactly the distinct
weather values observed in the previous-row weather field: every feature
row carries one 0/1 indicator cell per observed category, the indicator
of category `c` is 1 exactly when the row's previous-day weather is `c`
and 0 otherwise, and a row with missing previous-day weather is all-zero
across the indicator cells (an unseen category has no cell at all, hence
also reads as zero). -/
theorem C9_weather_one_hot (P : NumPrims) (df : List DailyRecord) (i : ℕ) (row : FeatRow)
    (h : (createFeatures P df)[i]? = some row) :
    (row.dummies.map Prod.fst = weatherCats (sortByDate df)) ∧
    (∀ c, c ∈ weatherCats (sortByDate df) ↔
      ∃ j, j < (sortByDate df).length ∧ weatherLag1 (sortByDate df) j = some c) ∧
    (∀ cv ∈ row.dummies, (cv.2 = 1 ↔ row.weather_lag1 = some cv.1) ∧
      (cv.2 = 0 ↔ row.weather_lag1 ≠ some cv.1)) ∧
    (row.weather_lag1 = none → ∀ cv ∈ row.dummies, cv.2 = 0) := by
  obtain ⟨r, hr, rfl⟩ := createFeatures_row P df i row h
  refine ⟨?_, ?_, ?_, ?_⟩
  · simp [featRowAt, List.map_map, Function.comp_def]
  · intro c
    simp [weatherCats, List.mem_dedup, List.mem_filterMap, List.mem_range]
  · intro cv hcv
    simp only [featRowAt, List.mem_map] at hcv ⊢
    obtain ⟨c, _hc, rfl⟩ := hcv
    constructor
    · split_ifs with hw <;> simp_all
    · split_ifs with hw <;> simp_all
  · intro hnone cv hcv
    simp only [featRowAt] at hnone hcv ⊢
    rw [hnone] at hcv
    simp only [List.mem_map] at hcv
    obtain ⟨c, _hc, rfl⟩ := hcv
    simp

set_option maxRecDepth 8000 in
/-- Claim C9 witness: on the three-day series with weathers
`晴れ, 雨, 晴れ` the third row's indicators are one-hot on `雨`. -/
theorem C9_weather_one_hot_witness :
    (wxRow.dummies.map Prod.fst = weatherCats (sortByDate wxSeries)) ∧
    (∀ c, c ∈ weatherCats (sortByDate wxSeries) ↔
      ∃ j, j < (sortByDate wxSeries).length ∧ weatherLag1 (sortByDate wxSeries) j = some c) ∧
    (∀ cv ∈ wxRow.dummies, (cv.2 = 1 ↔ wxRow.weather_lag1 = some cv.1) ∧
      (cv.2 = 0 ↔ wxRow.weather_lag1 ≠ some cv.1)) ∧
    (wxRow.weather_lag1 = none → ∀ cv ∈ wxRow.dummies, cv.2 = 0) :=
  C9_weather_one_hot P0 wxSeries 2 wxRow
    (by rw [List.getElem?_eq_getElem (by with_unfolding_all decide : 2 < (createFeatures P0 wxSeries).length)]; rfl)

/-- Claim C4: `predict_tomorrow` fails (with the insufficient-data
error) if and only if no row of the feature table survives the
missing/infinite-value cleaning; otherwise it predicts from the
chronologically last surviving row.  In particular a series of only 5
days of history always fails: every row misses its 7-day-and-beyond
lookback.  (`ValidSeries` scopes the claim to data-model-conform raw
records, under which the `none`-for-`NaN`-or-`Inf` cell model is exact.) -/
theorem C4_data_insufficiency (P : NumPrims) (model : List (Option ℚ) → ℚ) (cfg : ModelConfig) :
    (∀ df d, ValidSeries df →
      ((∃ e, predictTomorrow P model cfg df d = .error e) ↔ lastCleanRow P df = none) ∧
      (∀ row, lastCleanRow P df = some row →
        predictTomorrow P model cfg df d = .ok (resultOfRow model cfg d row))) ∧
    (∀ d, ∃ e, predictTomorrow P model cfg fiveDaySeries d = .error e) := by
  constructor
  · intro df d _hvalid
    constructor
    · rw [predictTomorrow_eq]
      cases hl : lastCleanRow P df <;> simp
    · intro row hrow
      rw [predictTomorrow_eq, hrow]
  · intro d
    have h5 : lastCleanRow P fiveDaySeries = none := by with_unfolding_all rfl
    exact ⟨_, by rw [predictTomorrow_eq, h5]⟩

set_option maxRecDepth 100000 in
set_option maxHeartbeats 1000000 in
/-- Claim C4 witness: the 35-day demo series has a surviving row, and
the prediction is built from the last one. -/
theorem C4_data_insufficiency_witness :
    ∃ row, lastCleanRow P0 demoSeries = some row ∧
      predictTomorrow P0 demoModel demoCfg demoSeries 19900
        = .ok (resultOfRow demoModel demoCfg 19900 row) := by
  have hv : ValidSeries demoSeries := by
    intro r hr
    simp only [demoSeries, List.mem_map] at hr
    obtain ⟨k, -, rfl⟩ := hr
    refine ⟨by norm_num [demoRec], ?_⟩
    intro v hvmem
    simp only [demoRec, Option.mem_def, Option.some.injEq] at hvmem
    subst hvmem
    norm_num
  have hs : (lastCleanRow P0 demoSeries).isSome = true := by with_unfolding_all rfl
  obtain ⟨row, hrow⟩ := Option.isSome_iff_exists.mp hs
  exact ⟨row, hrow,
    ((C4_data_insufficiency P0 demoModel demoCfg).1 demoSeries 19900 hv).2 row hrow⟩

set_option maxRecDepth 100000 in
set_option maxHeartbeats 1000000 in
/-- Claim C8 witness: both implementations run on the demo data; the
projections agree on the concrete results. -/
theorem C8_lite_refines_rich_witness :
    demoResultLite.prediction_date = demoResult.prediction_date ∧
    demoResultLite.conservative_prediction = demoResult.conservative_prediction ∧
    (∀ row, lastCleanRow P0 demoSeries = some row →
      demoResultLite.risk_level = (assessRisk (riskInputsOf row)).1) :=
  (C8_lite_refines_rich P0 demoModel demoCfg demoSeries 19900).2 demoResult demoResultLite
    (by with_unfolding_all rfl) (by with_unfolding_all rfl)

/-- An empty range. -/
theorem dateRange_nil (a b : ℤ) (h : b < a) : dateRange a b = [] := by
  rw [dateRange]
  simp [h]

/-- A nonempty range starts at its left end. -/
theorem dateRange_cons (a b : ℤ) (h : ¬b < a) : dateRange a b = a :: dateRange (a + 1) b := by
  rw [dateRange]
  simp [h]

/-- Membership in the inclusive range. -/
theorem mem_dateRange (a b d : ℤ) : d ∈ dateRange a b ↔ a ≤ d ∧ d ≤ b := by
  have H : ∀ n (a : ℤ), (b + 1 - a).toNat ≤ n → (d ∈ dateRange a b ↔ a ≤ d ∧ d ≤ b) := by
    intro n
    induction n with
    | zero =>
      intro a ha
      rw [dateRange_nil a b (by omega)]
      simp
      omega
    | succ n ih =>
      intro a ha
      by_cases hb : b < a
      · rw [dateRange_nil a b hb]
        simp
        omega
      · rw [dateRange_cons a b hb, List.mem_cons, ih (a + 1) (by omega)]
        omega
  exact H _ a le_rfl

/-- The collection loop is the per-date parse filtered over the
inclusive range: a failed date contributes nothing and the loop
continues with the remaining dates. -/
theorem collectNewData_eq (fetch : ℤ → Option RawDoc) (a b : ℤ) :
    collectNewData fetch a b = (dateRange a b).filterMap (parseDailyData fetch) := by
  have H : ∀ n (a : ℤ), (b + 1 - a).toNat ≤ n →
      collectNewData fetch a b = (dateRange a b).filterMap (parseDailyData fetch) := by
    intro n
    induction n with
    | zero =>
      intro a ha
      rw [collectNewData, dateRange_nil a b (by omega)]
      simp [show b < a by omega]
    | succ n ih =>
      intro a ha
      by_cases hb : b < a
      · rw [collectNewData, dateRange_nil a b hb]
        simp [hb]
      · rw [collectNewData, dateRange_cons a b hb]
        rw [List.filterMap_cons]
        simp only [hb, if_false]
        rw [ih (a + 1) (by omega)]
        cases parseDailyData fetch a <;> rfl
  exact H _ a le_rfl

/-- `filterMap` keeps as many elements as there are successes. -/
theorem length_filterMap_eq_count {α β : Type} (f : α → Option β) (l : List α) :
    (l.filterMap f).length = (l.filter (fun x => (f x).isSome)).length := by
  induction l with
  | nil => rfl
  | cons x xs ih =>
    cases hfx : f x <;>
      simp [List.filterMap_cons, List.filter_cons, hfx, ih]

/-- A parsed record carries the queried date. -/
theorem parseDailyData_date (fetch : ℤ → Option RawDoc) (d : ℤ) (r : DailyRecord)
    (h : parseDailyData fetch d = some r) : r.date = d := by
  unfold parseDailyData at h
  split at h
  · exact Option.noConfusion h
  · split at h
    · exact Option.noConfusion h
    · simp only [Option.some.injEq] at h
      rw [← h]

/-- The series maximum is absent exactly for the empty series. -/
theorem maxDate_eq_none_iff (l : List DailyRecord) : maxDate l = none ↔ l = [] := by
  unfold maxDate
  rw [List.max?_eq_none_iff, List.map_eq_nil_iff]

/-- Characterization of the series maximum. -/
theorem maxDate_spec (l : List DailyRecord) (m : ℤ) :
    maxDate l = some m ↔ (m ∈ l.map (·.date) ∧ ∀ d ∈ l.map (·.date), d ≤ m) := by
  unfold maxDate
  exact List.max?_eq_some_iff (fun a => le_refl a) max_choice (fun a b c => max_le_iff)

/-- Insertion permutes consing. -/
theorem insertByDate_perm (r : DailyRecord) (l : List DailyRecord) :
    List.Perm (insertByDate r l) (r :: l) := by
  induction l with
  | nil => rfl
  | cons x xs ih =>
    simp only [insertByDate]
    split
    · rfl
    · exact (ih.cons x).trans (List.Perm.swap r x xs)

/-- Sorting permutes the series. -/
theorem sortByDate_perm (l : List DailyRecord) : List.Perm (sortByDate l) l := by
  induction l with
  | nil => rfl
  | cons x xs ih =>
    exact (insertByDate_perm x (sortByDate xs)).trans (ih.cons x)

/-- The series maximum is invariant under permutation. -/
theorem maxDate_perm {l l' : List DailyRecord} (h : List.Perm l l') : maxDate l = maxDate l' := by
  cases hm : maxDate l' with
  | none =>
    rw [maxDate_eq_none_iff] at hm ⊢
    subst hm
    exact h.eq_nil
  | some m =>
    rw [maxDate_spec] at hm ⊢
    have hmap := h.map (·.date)
    exact ⟨hmap.mem_iff.mpr hm.1, fun d hd => hm.2 d (hmap.mem_iff.mp hd)⟩

/-- The merge on an empty series processes exactly the target date. -/
theorem updateFishingData_empty (fetch : ℤ → Option RawDoc) (target : ℤ) :
    updateFishingData fetch [] target =
      match parseDailyData fetch target with
      | some r => ([r], 1)
      | none => ([], 0) := by
  show mergeNew [] (collectNewData fetch target target) = _
  rw [collectNewData_eq, dateRange_cons target target (by omega),
    dateRange_nil (target + 1) target (by omega)]
  cases hp : parseDailyData fetch target <;>
    simp [List.filterMap_cons, hp, mergeNew, sortByDate, insertByDate]

/-- The merge is a no-op when the target is not past the series end. -/
theorem updateFishingData_stale (fetch : ℤ → Option RawDoc) (existing : List DailyRecord)
    (target last : ℤ) (hmax : maxDate existing = some last) (h : target ≤ last) :
    updateFishingData fetch existing target = (existing, 0) := by
  unfold updateFishingData
  rw [hmax]
  exact if_pos h

/-- The merge past the series end appends the successfully parsed dates
of the missing range. -/
theorem updateFishingData_fresh (fetch : ℤ → Option RawDoc) (existing : List DailyRecord)
    (target last : ℤ) (hmax : maxDate existing = some last) (h : last < target) :
    updateFishingData fetch existing target =
      mergeNew existing ((dateRange (last + 1) target).filterMap (parseDailyData fetch)) := by
  unfold updateFishingData
  rw [hmax]
  show (if target ≤ last then (existing, 0)
        else mergeNew existing (collectNewData fetch (last + 1) target)) = _
  rw [if_neg (by omega), collectNewData_eq]

/-- Claim C7: per-date fetch/parse failures never abort a merge run —
the collection loop equals the per-date parse filtered over the whole
missing range, so later dates are still processed after a failure — and
the returned count is exactly the number of successfully
parsed-and-appended dates.  On an empty series with a single target
date, the merge appends exactly one record when the source has data for
that date and zero when it does not. -/
theorem C7_merge_counts_successes (fetch : ℤ → Option RawDoc) :
    (∀ a b, collectNewData fetch a b = (dateRange a b).filterMap (parseDailyData fetch) ∧
      (collectNewData fetch a b).length =
        ((dateRange a b).filter (fun d => (parseDailyData fetch d).isSome)).length) ∧
    (∀ existing target last, maxDate existing = some last → last < target →
      (updateFishingData fetch existing target).2 =
        ((dateRange (last + 1) target).filter
          (fun d => (parseDailyData fetch d).isSome)).length) ∧
    (∀ target r, parseDailyData fetch target = some r →
      updateFishingData fetch [] target = ([r], 1)) ∧
    (∀ target, parseDailyData fetch target = none →
      updateFishingData fetch [] target = ([], 0)) := by
  refine ⟨?_, ?_, ?_, ?_⟩
  · intro a b
    refine ⟨collectNewData_eq fetch a b, ?_⟩
    rw [collectNewData_eq, length_filterMap_eq_count]
  · intro existing target last hmax hlt
    rw [← length_filterMap_eq_count, updateFishingData_fresh fetch existing target last hmax hlt]
    unfold mergeNew
    by_cases hemp : ((dateRange (last + 1) target).filterMap (parseDailyData fetch)).isEmpty
    · rw [if_pos hemp]
      rw [List.isEmpty_iff] at hemp
      rw [hemp]
      rfl
    · rw [if_neg hemp]
  · intro target r hr
    rw [updateFishingData_empty, hr]
  · intro target hr
    rw [updateFishingData_empty, hr]

/-- Claim C7 witness: an existing series ending at day 100 merged to
target day 103, where day 101 fails and days 102, 103 succeed: the count
is the number of successful dates (2) — the failure did not abort the
remaining dates. -/
theorem C7_merge_counts_successes_witness :
    (updateFishingData demoFetch mergeBase 103).2 =
      ((dateRange 101 103).filter (fun d => (parseDailyData demoFetch d).isSome)).length ∧
    (updateFishingData demoFetch mergeBase 103).2 = 2 := by
  refine ⟨(C7_merge_counts_successes demoFetch).2.1 mergeBase 103 100 (by rfl) (by omega), ?_⟩
  with_unfolding_all rfl

/-- Claim C6: the incremental merge is idempotent on the target date: a
target already present in the series yields zero appended rows and an
unchanged series, and re-running the merge on its own output for the
same target always yields zero additional appended rows and the series
unchanged. -/
theorem C6_merge_idempotent :
    (∀ fetch existing target, (∃ r ∈ existing, r.date = target) →
      updateFishingData fetch existing target = (existing, 0)) ∧
    (∀ fetch existing target,
      updateFishingData fetch (updateFishingData fetch existing target).1 target
        = ((updateFishingData fetch existing target).1, 0)) := by
  constructor
  · rintro fetch existing target ⟨r, hr, hrd⟩
    have hne : existing ≠ [] := by
      intro hnil
      subst hnil
      exact absurd hr (List.not_mem_nil r)
    obtain ⟨last, hlast⟩ : ∃ m, maxDate existing = some m := by
      cases hm : maxDate existing with
      | none => exact absurd ((maxDate_eq_none_iff existing).mp hm) hne
      | some m => exact ⟨m, rfl⟩
    have hub := (maxDate_spec existing last).mp hlast
    have hle : target ≤ last := by
      refine hub.2 target ?_
      rw [← hrd]
      exact List.mem_map_of_mem (fun x => x.date) hr
    exact updateFishingData_stale fetch existing target last hlast hle
  · intro fetch existing target
    cases hm : maxDate existing with
    | none =>
      have hnil : existing = [] := (maxDate_eq_none_iff existing).mp hm
      subst hnil
      rw [updateFishingData_empty]
      cases hp : parseDailyData fetch target with
      | none => rw [updateFishingData_empty, hp]
      | some r =>
        have hdate : r.date = target := parseDailyData_date fetch target r hp
        refine updateFishingData_stale fetch [r] target target ?_ le_rfl
        rw [maxDate_spec]
        constructor
        · simp [hdate]
        · intro d hd
          simp [hdate] at hd
          omega
    | some last =>
      by_cases hstale : target ≤ last
      · rw [updateFishingData_stale fetch existing target last hm hstale]
        exact updateFishingData_stale fetch existing target last hm hstale
      · have hlt : last < target := by omega
        rw [updateFishingData_fresh fetch existing target last hm hlt]
        unfold mergeNew
        by_cases hemp : ((dateRange (last + 1) target).filterMap (parseDailyData fetch)).isEmpty
        · rw [if_pos hemp]
          rw [updateFishingData_fresh fetch existing target last hm hlt]
          unfold mergeNew
          rw [if_pos hemp]
        · rw [if_neg hemp]
          have hperm : maxDate (sortByDate
                (existing ++ (dateRange (last + 1) target).filterMap (parseDailyData fetch)))
              = maxDate (existing ++ (dateRange (last + 1) target).filterMap (parseDailyData fetch)) :=
            maxDate_perm (sortByDate_perm _)
          obtain ⟨m1, hm1⟩ : ∃ m, maxDate
              (existing ++ (dateRange (last + 1) target).filterMap (parseDailyData fetch)) = some m := by
            cases hmm : maxDate (existing ++ (dateRange (last + 1) target).filterMap (parseDailyData fetch)) with
            | none =>
              rw [maxDate_eq_none_iff, List.append_eq_nil] at hmm
              have h0 := (maxDate_eq_none_iff existing).mpr hmm.1
              rw [h0] at hm
              exact Option.noConfusion hm
            | some m => exact ⟨m, rfl⟩
          have hspec := (maxDate_spec _ m1).mp hm1
          have hm1ub : ∀ d ∈ (existing ++ (dateRange (last + 1) target).filterMap
              (parseDailyData fetch)).map (fun x => x.date), d ≤ m1 := hspec.2
          have hm1_le : m1 ≤ target := by
            rcases List.mem_map.mp hspec.1 with ⟨r1, hr1, hrd1⟩
            rcases List.mem_append.mp hr1 with hin | hin
            · have hb := ((maxDate_spec existing last).mp hm).2 r1.date
                (List.mem_map_of_mem (fun x => x.date) hin)
              omega
            · rcases List.mem_filterMap.mp hin with ⟨d0, hd0, hpd0⟩
              have hb := parseDailyData_date fetch d0 r1 hpd0
              rw [mem_dateRange] at hd0
              omega
          by_cases htm : target ≤ m1
          · exact updateFishingData_stale fetch _ target m1 (hperm.trans hm1) htm
          · have hm1lt : m1 < target := by omega
            rw [updateFishingData_fresh fetch _ target m1 (hperm.trans hm1) hm1lt]
            have hnone : (dateRange (m1 + 1) target).filterMap (parseDailyData fetch) = [] := by
              rw [List.filterMap_eq_nil_iff]
              intro d hd
              rw [mem_dateRange] at hd
              cases hp2 : parseDailyData fetch d with
              | none => rfl
              | some r2 =>
                have hlastm1 : last ≤ m1 := by
                  rcases List.mem_map.mp ((maxDate_spec existing last).mp hm).1 with ⟨r0, hr0, hrd0⟩
                  refine hm1ub last ?_
                  rw [← hrd0]
                  exact List.mem_map_of_mem (fun x => x.date) (List.mem_append_left _ hr0)
                have hmem2 : r2 ∈ (dateRange (last + 1) target).filterMap (parseDailyData fetch) := by
                  refine List.mem_filterMap.mpr ⟨d, ?_, hp2⟩
                  rw [mem_dateRange]
                  omega
                have hub2 : r2.date ≤ m1 :=
                  hm1ub r2.date (List.mem_map_of_mem (fun x => x.date)
                    (List.mem_append_right _ hmem2))
                have hd2 := parseDailyData_date fetch d r2 hp2
                omega
            rw [hnone]
            rfl

/-- Claim C6 witness: merging a target date already present in the
series is a no-op returning zero appended rows. -/
theorem C6_merge_idempotent_witness :
    updateFishingData demoFetch mergeBase 100 = (mergeBase, 0) :=
  C6_merge_idempotent.1 demoFetch mergeBase 100 ⟨demoRec 100, by simp [mergeBase], rfl⟩

/-- A per-row quantity at a strictly earlier index is unchanged. -/
theorem rowF_pre {df df' : List DailyRecord} {i : ℕ}
    (hpre : ∀ j, j < i → df.get? j = df'.get? j)
    (f : DailyRecord → Option ℚ) (m : ℕ) (hm : m < i) :
    rowF f df m = rowF f df' m := by
  unfold rowF
  rw [hpre m hm]

/-- A lagged column at index at most `i` reads only strictly earlier
rows. -/
theorem lagF_congr {df df' : List DailyRecord} {i : ℕ}
    (hpre : ∀ j, j < i → df.get? j = df'.get? j)
    (f : DailyRecord → Option ℚ) (n m : ℕ) (hn : 1 ≤ n) (hm : m ≤ i) :
    lagF f n df m = lagF f n df' m := by
  unfold lagF
  by_cases h : m < n
  · rw [if_pos h, if_pos h]
  · rw [if_neg h, if_neg h]
    exact rowF_pre hpre f (m - n) (by omega)

/-- The shifted weather column reads only the previous row. -/
theorem weatherLag1_congr {df df' : List DailyRecord} {i : ℕ}
    (hpre : ∀ j, j < i → df.get? j = df'.get? j) :
    weatherLag1 df i = weatherLag1 df' i := by
  unfold weatherLag1
  by_cases h : i < 1
  · rw [if_pos h, if_pos h]
  · rw [if_neg h, if_neg h, hpre (i - 1) (by omega)]

/-- A rolling window at index at most `i` reads only strictly earlier
rows. -/
theorem rollVals_congr {df df' : List DailyRecord} {i : ℕ}
    (hpre : ∀ j, j < i → df.get? j = df'.get? j)
    (w : ℕ) (f : DailyRecord → Option ℚ) (m : ℕ) (hm : m ≤ i) :
    rollVals w f df m = rollVals w f df' m := by
  unfold rollVals
  apply List.filterMap_congr
  intro k _hk
  by_cases hki : k + 1 ≤ m
  · rw [if_pos hki, if_pos hki, hpre (m - 1 - k) (by omega)]
  · rw [if_neg hki, if_neg hki]

/-- Rolling mean congruence. -/
theorem rollMean_congr {df df' : List DailyRecord} {i : ℕ}
    (hpre : ∀ j, j < i → df.get? j = df'.get? j)
    (w : ℕ) (f : DailyRecord → Option ℚ) (m : ℕ) (hm : m ≤ i) :
    rollMean w f df m = rollMean w f df' m := by
  unfold rollMean
  rw [rollVals_congr hpre w f m hm]

/-- Rolling std congruence. -/
theorem rollStd_congr (P : NumPrims) {df df' : List DailyRecord} {i : ℕ}
    (hpre : ∀ j, j < i → df.get? j = df'.get? j)
    (w : ℕ) (f : DailyRecord → Option ℚ) (m : ℕ) (hm : m ≤ i) :
    rollStd P w f df m = rollStd P w f df' m := by
  unfold rollStd
  rw [rollVals_congr hpre w f m hm]

/-- Rolling max congruence. -/
theorem rollMax_congr {df df' : List DailyRecord} {i : ℕ}
    (hpre : ∀ j, j < i → df.get? j = df'.get? j)
    (w : ℕ) (f : DailyRecord → Option ℚ) (m : ℕ) (hm : m ≤ i) :
    rollMax w f df m = rollMax w f df' m := by
  unfold rollMax
  rw [rollVals_congr hpre w f m hm]

/-- Rolling min congruence. -/
theorem rollMin_congr {df df' : List DailyRecord} {i : ℕ}
    (hpre : ∀ j, j < i → df.get? j = df'.get? j)
    (w : ℕ) (f : DailyRecord → Option ℚ) (m : ℕ) (hm : m ≤ i) :
    rollMin w f df m = rollMin w f df' m := by
  unfold rollMin
  rw [rollVals_congr hpre w f m hm]

/-- A date-only column at row `i` depends only on the row's date. -/
theorem dateCol_congr {df df' : List DailyRecord} {i : ℕ}
    (hdate : dateAt df i = dateAt df' i) (g : ℤ → ℚ) :
    dateCol g df i = dateCol g df' i := by
  unfold dateCol
  rw [hdate]

/-- A group-wise expanding mean at row `i` reads only strictly earlier
rows and the row's own date. -/
theorem groupExpMean_congr {df df' : List DailyRecord} {i : ℕ}
    (hpre : ∀ j, j < i → df.get? j = df'.get? j)
    (hdate : dateAt df i = dateAt df' i)
    (key : ℤ → ℤ) (f : DailyRecord → Option ℚ) :
    groupExpMean key f df i = groupExpMean key f df' i := by
  unfold groupExpMean
  rw [← hdate]
  cases dateAt df i with
  | none => rfl
  | some d =>
    have h : ∀ j ∈ List.range i,
        ((df.get? j).bind fun rj => if key rj.date = key d then f rj else none)
          = ((df'.get? j).bind fun rj => if key rj.date = key d then f rj else none) := by
      intro j hj
      rw [List.mem_range] at hj
      rw [hpre j hj]
    show meanIfNonempty (List.filterMap
        (fun j => (df.get? j).bind fun rj => if key rj.date = key d then f rj else none)
        (List.range i))
      = meanIfNonempty (List.filterMap
        (fun j => (df'.get? j).bind fun rj => if key rj.date = key d then f rj else none)
        (List.range i))
    rw [List.filterMap_congr h]

/-- The forward fill at a strictly earlier index is unchanged. -/
theorem ffillF_congr {df df' : List DailyRecord} {i : ℕ}
    (hpre : ∀ j, j < i → df.get? j = df'.get? j)
    (f : DailyRecord → Option ℚ) : ∀ k, k < i → ffillF f df k = ffillF f df' k := by
  intro k
  induction k with
  | zero =>
    intro h
    show rowF f df 0 = rowF f df' 0
    exact rowF_pre hpre f 0 h
  | succ n ih =>
    intro h
    show (rowF f df (n + 1)).orElse _ = (rowF f df' (n + 1)).orElse _
    rw [rowF_pre hpre f (n + 1) h, ih (by omega)]

/-- The shifted pct-change at index at most `i` reads only strictly
earlier rows. -/
theorem pctChangeLag1_congr {df df' : List DailyRecord} {i : ℕ}
    (hpre : ∀ j, j < i → df.get? j = df'.get? j)
    (f : DailyRecord → Option ℚ) (m : ℕ) (hm : m ≤ i) :
    pctChangeLag1 f df m = pctChangeLag1 f df' m := by
  match m with
  | 0 => rfl
  | 1 => rfl
  | k + 2 =>
    show (ffillF f df k).bind _ = (ffillF f df' k).bind _
    rw [ffillF_congr hpre f k (by omega), ffillF_congr hpre f (k + 1) (by omega)]

/-- A temperature gradient at index at most `i` reads only strictly
earlier rows. -/
theorem tempGradient_congr {df df' : List DailyRecord} {i : ℕ}
    (hpre : ∀ j, j < i → df.get? j = df'.get? j)
    (d : ℕ) (m : ℕ) (hm : m ≤ i) :
    tempGradient d df m = tempGradient d df' m := by
  unfold tempGradient
  rw [lagF_congr hpre tempF 1 m (by omega) hm, lagF_congr hpre tempF (1 + d) m (by omega) hm]

/-- Claim C1 counterexample: two one-row series that agree everywhere
except the raw catch count of their only (same-date, hence
later-or-equal) row produce different `aji_per_person` feature cells for
that row: `aji_per_person` is not a calendar or lunar field, yet it is
computed from the row's own raw values, refuting the claim that every
non-calendar/lunar column uses only strictly earlier dates. -/
theorem C1_counterexample :
    (createFeatures P0 leakA).map (fun row => cellVal row "aji_per_person") ≠
      (createFeatures P0 leakB).map (fun row => cellVal row "aji_per_person") := by
  with_unfolding_all decide

/-- Claim C1 (amended): every numeric column of the feature table except
the same-day ones — the raw passthrough columns `aji_count`, `visitors`,
`water_temp` (and the raw `weather` string), the derived
`aji_per_person`, and `temp_optimal` — together with the calendar/lunar
fields (functions of the row's own date, unchanged here because
perturbation preserves dates), is computed from strictly earlier rows
only: if two date-sorted series agree on all rows strictly before index
`i` and share the date at `i`, then row `i` of the feature table agrees
on every non-same-day numeric column, on the shifted weather column, and
on every weather-indicator value. -/
theorem C1_anti_leakage (P : NumPrims) (df df' : List DailyRecord) (i : ℕ)
    (_hs : StrictSortedByDate df) (_hs' : StrictSortedByDate df')
    (hpre : ∀ j, j < i → df.get? j = df'.get? j)
    (hdate : dateAt df i = dateAt df' i) :
    (∀ c ∈ numericCols P, c.1 ∉ sameDayColNames → c.2 df i = c.2 df' i) ∧
    weatherLag1 df i = weatherLag1 df' i ∧
    (∀ cat : String, (if weatherLag1 df i = some cat then (1 : ℚ) else 0)
      = (if weatherLag1 df' i = some cat then 1 else 0)) := by
  have hw := weatherLag1_congr hpre
  refine ⟨?_, hw, fun cat => by rw [hw]⟩
  intro c hc hname
  simp only [numericCols, List.mem_append] at hc
  rcases hc with ((((((((((hc | hc) | hc) | hc) | hc) | hc) | hc) | hc) | hc) | hc) | hc)
  · -- raw passthrough block: all exempt
    simp only [rawCols, List.mem_cons, List.not_mem_nil, or_false] at hc
    rcases hc with rfl | rfl | rfl | rfl <;> exact absurd (by decide) hname
  · -- lunar block: functions of the row's own date
    simp only [moonCols, List.mem_cons, List.not_mem_nil, or_false] at hc
    rcases hc with rfl | rfl | rfl | rfl | rfl <;> exact dateCol_congr hdate _
  · -- lag block
    simp only [lagCols, lagList, List.mem_flatMap, List.mem_cons, List.not_mem_nil,
      or_false] at hc
    obtain ⟨l, hl, hc⟩ := hc
    have hl1 : 1 ≤ l := by rcases hl with rfl | rfl | rfl | rfl | rfl | rfl | rfl <;> omega
    rcases hc with rfl | rfl | rfl | rfl <;> exact lagF_congr hpre _ l i hl1 (le_refl i)
  · -- calendar block
    simp only [calCols, List.mem_cons, List.not_mem_nil, or_false] at hc
    rcases hc with rfl | rfl | rfl | rfl | rfl <;> exact dateCol_congr hdate _
  · -- group-wise expanding means
    simp only [groupCols, List.mem_cons, List.not_mem_nil, or_false] at hc
    rcases hc with rfl | rfl | rfl <;> exact groupExpMean_congr hpre hdate _ _
  · -- cyclical encodings
    simp only [cycCols, List.mem_cons, List.not_mem_nil, or_false] at hc
    rcases hc with rfl | rfl | rfl | rfl <;> exact dateCol_congr hdate _
  · -- temperature block
    simp only [tempCols, List.mem_cons, List.not_mem_nil, or_false] at hc
    rcases hc with rfl | rfl | rfl | rfl | rfl | rfl | rfl | rfl | rfl
    · exact tempGradient_congr hpre 1 i (le_refl i)
    · exact tempGradient_congr hpre 3 i (le_refl i)
    · exact tempGradient_congr hpre 7 i (le_refl i)
    · exact tempGradient_congr hpre 14 i (le_refl i)
    · show osub (tempGradient 1 df i) (shiftCol 1 (tempGradient 1) df i)
        = osub (tempGradient 1 df' i) (shiftCol 1 (tempGradient 1) df' i)
      rw [tempGradient_congr hpre 1 i (le_refl i)]
      unfold shiftCol
      by_cases h1 : i < 1
      · rw [if_pos h1, if_pos h1]
      · rw [if_neg h1, if_neg h1, tempGradient_congr hpre 1 (i - 1) (by omega)]
    · show some (ogt (tempGradient 1 df i) (some 0))
        = some (ogt (tempGradient 1 df' i) (some 0))
      rw [tempGradient_congr hpre 1 i (le_refl i)]
    · show some (ogt (some 0) (tempGradient 1 df i))
        = some (ogt (some 0) (tempGradient 1 df' i))
      rw [tempGradient_congr hpre 1 i (le_refl i)]
    · exact absurd (by decide) hname
    · exact lagF_congr hpre tempOptF 1 i (by omega) (le_refl i)
  · -- rolling block
    simp only [rollCols, windowList, List.mem_flatMap, List.mem_cons, List.not_mem_nil,
      or_false] at hc
    obtain ⟨w, _hw, hc⟩ := hc
    rcases hc with rfl | rfl | rfl | rfl | rfl | rfl | rfl | rfl | rfl | rfl
    · exact rollMean_congr hpre w appF i (le_refl i)
    · exact rollStd_congr P hpre w appF i (le_refl i)
    · exact rollMax_congr hpre w appF i (le_refl i)
    · exact rollMin_congr hpre w appF i (le_refl i)
    · exact rollMean_congr hpre w ajiF i (le_refl i)
    · exact rollStd_congr P hpre w ajiF i (le_refl i)
    · exact rollMean_congr hpre w visF i (le_refl i)
    · exact rollStd_congr P hpre w visF i (le_refl i)
    · exact rollMean_congr hpre w tempF i (le_refl i)
    · exact rollStd_congr P hpre w tempF i (le_refl i)
  · -- change-rate block
    simp only [changeCols, List.mem_cons, List.not_mem_nil, or_false] at hc
    rcases hc with rfl | rfl | rfl | rfl | rfl
    · show osub (lagF appF 1 df i) (lagF appF 2 df i)
        = osub (lagF appF 1 df' i) (lagF appF 2 df' i)
      rw [lagF_congr hpre appF 1 i (by omega) (le_refl i),
        lagF_congr hpre appF 2 i (by omega) (le_refl i)]
    · exact pctChangeLag1_congr hpre appF i (le_refl i)
    · show some (ogt (lagF appF 1 df i) (lagF appF 2 df i))
        = some (ogt (lagF appF 1 df' i) (lagF appF 2 df' i))
      rw [lagF_congr hpre appF 1 i (by omega) (le_refl i),
        lagF_congr hpre appF 2 i (by omega) (le_refl i)]
    · show osub (lagF visF 1 df i) (lagF visF 2 df i)
        = osub (lagF visF 1 df' i) (lagF visF 2 df' i)
      rw [lagF_congr hpre visF 1 i (by omega) (le_refl i),
        lagF_congr hpre visF 2 i (by omega) (le_refl i)]
    · exact pctChangeLag1_congr hpre visF i (le_refl i)
  · -- interaction block
    simp only [interCols, List.mem_cons, List.not_mem_nil, or_false] at hc
    rcases hc with rfl | rfl | rfl | rfl | rfl | rfl | rfl | rfl | rfl | rfl
    · show omul (lagF appF 1 df i) (lagF tempF 1 df i)
        = omul (lagF appF 1 df' i) (lagF tempF 1 df' i)
      rw [lagF_congr hpre appF 1 i (by omega) (le_refl i),
        lagF_congr hpre tempF 1 i (by omega) (le_refl i)]
    · show omul (lagF appF 1 df i) (lagF visF 1 df i)
        = omul (lagF appF 1 df' i) (lagF visF 1 df' i)
      rw [lagF_congr hpre appF 1 i (by omega) (le_refl i),
        lagF_congr hpre visF 1 i (by omega) (le_refl i)]
    · show omul (lagF ajiF 1 df i) (lagF tempF 1 df i)
        = omul (lagF ajiF 1 df' i) (lagF tempF 1 df' i)
      rw [lagF_congr hpre ajiF 1 i (by omega) (le_refl i),
        lagF_congr hpre tempF 1 i (by omega) (le_refl i)]
    · show omul (lagF tempF 1 df i) (lagF visF 1 df i)
        = omul (lagF tempF 1 df' i) (lagF visF 1 df' i)
      rw [lagF_congr hpre tempF 1 i (by omega) (le_refl i),
        lagF_congr hpre visF 1 i (by omega) (le_refl i)]
    · show omul (lagF appF 1 df i) (dateCol (fun d => P.sin2pi (moonPhase d)) df i)
        = omul (lagF appF 1 df' i) (dateCol (fun d => P.sin2pi (moonPhase d)) df' i)
      rw [lagF_congr hpre appF 1 i (by omega) (le_refl i), dateCol_congr hdate]
    · show omul (lagF tempF 1 df i) (dateCol (fun d => P.sin2pi (moonPhase d)) df i)
        = omul (lagF tempF 1 df' i) (dateCol (fun d => P.sin2pi (moonPhase d)) df' i)
      rw [lagF_congr hpre tempF 1 i (by omega) (le_refl i), dateCol_congr hdate]
    · show omul (lagF appF 1 df i) (dateCol (fun d => P.sin2pi ((monthOf d : ℚ) / 12)) df i)
        = omul (lagF appF 1 df' i) (dateCol (fun d => P.sin2pi ((monthOf d : ℚ) / 12)) df' i)
      rw [lagF_congr hpre appF 1 i (by omega) (le_refl i), dateCol_congr hdate]
    · show omul (lagF tempF 1 df i) (dateCol (fun d => P.sin2pi ((monthOf d : ℚ) / 12)) df i)
        = omul (lagF tempF 1 df' i) (dateCol (fun d => P.sin2pi ((monthOf d : ℚ) / 12)) df' i)
      rw [lagF_congr hpre tempF 1 i (by omega) (le_refl i), dateCol_congr hdate]
    · show omul (lagF appF 1 df i) (tempGradient 7 df i)
        = omul (lagF appF 1 df' i) (tempGradient 7 df' i)
      rw [lagF_congr hpre appF 1 i (by omega) (le_refl i),
        tempGradient_congr hpre 7 i (le_refl i)]
    · show omul (rollMean 7 appF df i) (tempGradient 7 df i)
        = omul (rollMean 7 appF df' i) (tempGradient 7 df' i)
      rw [rollMean_congr hpre 7 appF i (le_refl i), tempGradient_congr hpre 7 i (le_refl i)]
  · -- ratio block
    simp only [ratioCols, List.mem_cons, List.not_mem_nil, or_false] at hc
    rcases hc with rfl | rfl | rfl | rfl | rfl
    · show odiv (lagF appF 1 df i) (omap (· + 1 / 10) (rollMean 3 appF df i))
        = odiv (lagF appF 1 df' i) (omap (· + 1 / 10) (rollMean 3 appF df' i))
      rw [lagF_congr hpre appF 1 i (by omega) (le_refl i), rollMean_congr hpre 3 appF i (le_refl i)]
    · show odiv (lagF appF 1 df i) (omap (· + 1 / 10) (rollMean 7 appF df i))
        = odiv (lagF appF 1 df' i) (omap (· + 1 / 10) (rollMean 7 appF df' i))
      rw [lagF_congr hpre appF 1 i (by omega) (le_refl i), rollMean_congr hpre 7 appF i (le_refl i)]
    · show odiv (lagF appF 1 df i) (omap (· + 1 / 10) (rollMean 14 appF df i))
        = odiv (lagF appF 1 df' i) (omap (· + 1 / 10) (rollMean 14 appF df' i))
      rw [lagF_congr hpre appF 1 i (by omega) (le_refl i), rollMean_congr hpre 14 appF i (le_refl i)]
    · show odiv (lagF visF 1 df i) (omap (· + 1) (rollMean 7 visF df i))
        = odiv (lagF visF 1 df' i) (omap (· + 1) (rollMean 7 visF df' i))
      rw [lagF_congr hpre visF 1 i (by omega) (le_refl i), rollMean_congr hpre 7 visF i (le_refl i)]
    · show odiv (lagF tempF 1 df i) (omap (· + 1 / 10) (rollMean 7 tempF df i))
        = odiv (lagF tempF 1 df' i) (omap (· + 1 / 10) (rollMean 7 tempF df' i))
      rw [lagF_congr hpre tempF 1 i (by omega) (le_refl i), rollMean_congr hpre 7 tempF i (le_refl i)]

set_option maxRecDepth 100000 in
/-- Claim C1 witness: two two-day series agreeing on day one but with
the later day's raw values perturbed; the first feature row agrees on
every non-same-day numeric column, the shifted weather column, and the
weather indicators. -/
theorem C1_anti_leakage_witness :
    (∀ c ∈ numericCols P0, c.1 ∉ sameDayColNames → c.2 leakC 0 = c.2 leakD 0) ∧
    weatherLag1 leakC 0 = weatherLag1 leakD 0 ∧
    (∀ cat : String, (if weatherLag1 leakC 0 = some cat then (1 : ℚ) else 0)
      = (if weatherLag1 leakD 0 = some cat then 1 else 0)) :=
  C1_anti_leakage P0 leakC leakD 0 (by decide) (by decide)
    (fun j hj => absurd hj (by omega)) rfl

end FCP
